import Mathlib

/-!
Verification development for the PFE internship-application platform.

The repository ships several historical variants of the same Go backend:
the original `backend/main.go` (namespace `Orig` below), a middle variant
appended to `main.go`, and the newest variant embedded after the React code
in `frontend/src/App.jsx` (namespace `New` below), together with the
client-side form validation of the React apply page (namespace `Client`).
Each handler is embedded as a pure function from a server state and a
parsed request to a response and a successor state.  Filesystem writes are
modelled as a list of written upload paths; `time.Now().UnixNano()` is
modelled by a monotone counter carried in the state; OS-level I/O failures
(os.Create, io.Copy) are not modelled and are assumed to succeed, as are
database row inserts (the schema carries no uniqueness constraint on
applications, per the repository).
-/

namespace PFE

/-- A multipart form file part: the client-supplied filename and the part's
declared content type (`header.Header.Get "Content-Type"` in Go). -/
structure FormFile where
  filename : String
  contentType : String
  deriving Repr, DecidableEq

/-- The parsed `/apply` multipart form.  Go's `r.FormValue` returns the empty
string for missing fields, so each text field is a plain `String`; the two
file parts are `Option FormFile` (`none` models `r.FormFile` failing because
the part is absent); `subjects` models `r.Form["subjects"]`. -/
structure ApplyForm where
  full_name : String
  email : String
  gender : String
  phone : String
  university : String
  field_of_study : String
  degree_level : String
  application_type : String
  internship_duration : String
  preferred_working_method : String
  early_start_date : String
  subjects : List String
  cv : Option FormFile
  motivation : Option FormFile
  deriving Repr, DecidableEq

/-- A calendar date, the result of Go's `time.Parse "2006-01-02"`. -/
structure Date where
  year : Nat
  month : Nat
  day : Nat
  deriving Repr, DecidableEq

def digitVal (c : Char) : Nat := c.toNat - 48

def isLeapYear (y : Nat) : Bool :=
  (y % 4 == 0 && y % 100 != 0) || y % 400 == 0

def daysInMonth (y m : Nat) : Nat :=
  if m = 2 then (if isLeapYear y then 29 else 28)
  else if m = 4 ∨ m = 6 ∨ m = 9 ∨ m = 11 then 30
  else 31

/-- Go's `time.Parse "2006-01-02" v`: exactly `YYYY-MM-DD` with a valid
month and a day valid for that month (leap years included); `none` models a
parse error. -/
def parseDate (s : String) : Option Date :=
  match s.data with
  | [y1, y2, y3, y4, '-', m1, m2, '-', d1, d2] =>
    if y1.isDigit && y2.isDigit && y3.isDigit && y4.isDigit &&
        m1.isDigit && m2.isDigit && d1.isDigit && d2.isDigit then
      let y := ((digitVal y1 * 10 + digitVal y2) * 10 + digitVal y3) * 10 + digitVal y4
      let m := digitVal m1 * 10 + digitVal m2
      let d := digitVal d1 * 10 + digitVal d2
      if 1 ≤ m && m ≤ 12 && 1 ≤ d && d ≤ daysInMonth y m then some ⟨y, m, d⟩
      else none
    else none
  | _ => none

/-- The `early_start_date` handling shared by the apply handlers:
`var startDate sql.NullTime; if v != "" { t, err := time.Parse(...); if err
== nil { startDate = {t, true} } }` — an absent field stays NULL and a
malformed value is silently dropped. -/
def startDateOf (v : String) : Option Date :=
  if v = "" then none else parseDate v

/-- A stored row of the `applications` table. -/
structure Application where
  id : Nat
  full_name : String
  email : String
  gender : String
  phone : String
  university : String
  field_of_study : String
  degree_level : String
  application_type : String
  internship_duration : String
  preferred_working_method : String
  start_date : Option Date
  created_at : Nat
  cv_file_path : String
  motivation_file_path : String
  deriving Repr, DecidableEq

/-- A row of the `subjects` table. -/
structure Subject where
  id : Nat
  name : String
  deriving Repr, DecidableEq

/-- A row of the `application_subjects` join table of the newest schema
(`application_id`, `subject_id`). -/
structure AppSubject where
  application_id : Nat
  subject_id : Nat
  deriving Repr, DecidableEq

/-- Outcome of the apply handlers: `http.Error w msg status`, or the 201
JSON success response carrying the new application id. -/
inductive ApplyOut where
  | httpError (status : Nat) (body : String)
  | created (id : Nat)
  deriving Repr, DecidableEq

/-- The id assigned by `RETURNING id` on insert: a fresh serial, modelled as
one more than the largest id on file. -/
def nextAppId (apps : List Application) : Nat :=
  apps.foldr (fun a m => max a.id m) 0 + 1

theorem le_fold_max (apps : List Application) :
    ∀ a ∈ apps, a.id ≤ apps.foldr (fun a m => max a.id m) 0 := by
  induction apps with
  | nil => intro a ha; cases ha
  | cons b bs ih =>
    intro a ha
    rw [List.mem_cons] at ha
    rcases ha with rfl | ha
    · exact le_max_left _ _
    · exact le_trans (ih a ha) (le_max_right _ _)

theorem nextAppId_fresh (apps : List Application) :
    ∀ a ∈ apps, a.id < nextAppId apps := by
  intro a ha
  exact Nat.lt_succ_of_le (le_fold_max apps a ha)

/-! ## The original backend variant (`backend/main.go`, first version)

Its `application_subjects` table stores the raw subject *name* alongside the
application id (`INSERT INTO application_subjects (application_id, subject)`),
and its `savePDF` checks the content type of a present file. -/

namespace Orig

/-- Database state of the original variant. -/
structure DB where
  applications : List Application
  application_subjects : List (Nat × String)
  deriving Repr, DecidableEq

/-- Server state: the database, the set of written upload files (paths) and
the `UnixNano` clock used for upload names and `created_at`. -/
structure ServerState where
  db : DB
  files : List String
  clock : Nat
  deriving Repr, DecidableEq

/-- Closure `savePDF field` of the original handler: a missing part returns
`("", nil)`; a present part whose content type is not `application/pdf`
returns `("", error)`; otherwise the file is written under
`uploads/<unixnano>_<filename>` and its path returned.  The result pairs
`(path, error message?)` with the successor state. -/
def savePDF (st : ServerState) (field : String) (f : Option FormFile) :
    (String × Option String) × ServerState :=
  match f with
  | none => (("", none), st)
  | some file =>
    if file.contentType ≠ "application/pdf" then
      (("", some (field ++ " must be a PDF file")), st)
    else
      let path := "uploads/" ++ toString st.clock ++ "_" ++ file.filename
      ((path, none), { st with files := st.files ++ [path], clock := st.clock + 1 })

/-- The original `applyHandler` (POST path, multipart already parsed):
rejects an empty subject list with 400, silently drops an unparseable
start date, saves the CV (400 on a non-PDF CV), saves the motivation letter
*discarding its error*, inserts the application row and one join row per
submitted subject name, and answers 201 with the new id. -/
def applyHandler (st : ServerState) (r : ApplyForm) : ApplyOut × ServerState :=
  if r.subjects = [] then
    (.httpError 400 "At least one subject is required", st)
  else
    let parsedStartDate := startDateOf r.early_start_date
    match savePDF st "cv" r.cv with
    | ((_, some e), st1) => (.httpError 400 e, st1)
    | ((cvPath, none), st1) =>
      let mot := savePDF st1 "motivation" r.motivation
      let motivationPath := mot.1.1
      let st2 := mot.2
      let appId := nextAppId st2.db.applications
      let app : Application :=
        { id := appId
          full_name := r.full_name
          email := r.email
          gender := r.gender
          phone := r.phone
          university := r.university
          field_of_study := r.field_of_study
          degree_level := r.degree_level
          application_type := r.application_type
          internship_duration := r.internship_duration
          preferred_working_method := r.preferred_working_method
          start_date := parsedStartDate
          created_at := st2.clock
          cv_file_path := cvPath
          motivation_file_path := motivationPath }
      let db1 : DB :=
        { applications := st2.db.applications ++ [app]
          application_subjects :=
            st2.db.application_subjects ++ r.subjects.map (fun s => (appId, s)) }
      (.created appId, { st2 with db := db1, clock := st2.clock + 1 })

end Orig

/-! ## The newest backend variant (Go code embedded in `frontend/src/App.jsx`)

Its `application_subjects` table stores `(application_id, subject_id)` and
the apply handler resolves submitted subject names against the `subjects`
table, checks email presence and uniqueness up front, and reports a missing
CV part as an internal error.  Its `savePDF` performs no content-type
check. -/

namespace New

/-- Database state of the newest variant. -/
structure DB where
  applications : List Application
  subjects : List Subject
  application_subjects : List AppSubject
  deriving Repr, DecidableEq

/-- Server state: database, written upload paths, `UnixNano` clock. -/
structure ServerState where
  db : DB
  files : List String
  clock : Nat
  deriving Repr, DecidableEq

/-- Query `SELECT EXISTS (SELECT 1 FROM applications WHERE email=$1)`. -/
def emailOnFile (db : DB) (email : String) : Bool :=
  db.applications.any (fun a => a.email == email)

/-- Closure `savePDF field` of the newest handler: a missing part propagates the
`r.FormFile` error as `("", err)`; a present part is written under
`uploads/<unixnano>_<filename>` unconditionally (no content-type check). -/
def savePDF (st : ServerState) (f : Option FormFile) :
    (String × Option Unit) × ServerState :=
  match f with
  | none => (("", some ()), st)
  | some file =>
    let path := "uploads/" ++ toString st.clock ++ "_" ++ file.filename
    ((path, none), { st with files := st.files ++ [path], clock := st.clock + 1 })

/-- Query `SELECT id FROM subjects WHERE name=$1` — the first matching row. -/
def subjectIdByName (db : DB) (n : String) : Option Nat :=
  (db.subjects.find? (fun s => s.name == n)).map Subject.id

/-- The newest `applyHandler` (POST path, multipart already parsed):
400 on an empty email, 409 when the email is already on file, 500 when the
CV part cannot be saved (in particular when it is absent), motivation save
error discarded, unparseable start date silently dropped, application row
inserted, each submitted subject name resolved to an id (unknown names
silently skipped) and a join row inserted per resolved name, 201 with the
new id. -/
def applyHandler (st : ServerState) (r : ApplyForm) : ApplyOut × ServerState :=
  if r.email = "" then
    (.httpError 400 "Email is required", st)
  else if emailOnFile st.db r.email then
    (.httpError 409 "Email already used", st)
  else
    match savePDF st r.cv with
    | ((_, some _), st1) => (.httpError 500 "Failed to save CV", st1)
    | ((cvPath, none), st1) =>
      let mot := savePDF st1 r.motivation
      let motivationPath := mot.1.1
      let st2 := mot.2
      let startDate := startDateOf r.early_start_date
      let appId := nextAppId st2.db.applications
      let app : Application :=
        { id := appId
          full_name := r.full_name
          email := r.email
          gender := r.gender
          phone := r.phone
          university := r.university
          field_of_study := r.field_of_study
          degree_level := r.degree_level
          application_type := r.application_type
          internship_duration := r.internship_duration
          preferred_working_method := r.preferred_working_method
          start_date := startDate
          created_at := st2.clock
          cv_file_path := cvPath
          motivation_file_path := motivationPath }
      let newJoins := r.subjects.filterMap
        (fun n => (subjectIdByName st2.db n).map (fun sid => AppSubject.mk appId sid))
      let db1 : DB :=
        { applications := st2.db.applications ++ [app]
          subjects := st2.db.subjects
          application_subjects := st2.db.application_subjects ++ newJoins }
      (.created appId, { st2 with db := db1, clock := st2.clock + 1 })

/-- One row of the `/applications` JSON response (`ApplicationResponse` in
Go), with the joined subject names.  The repository formats `created_at` and
`start_date` as date strings; the formatting itself is not modelled, the
underlying values are kept. -/
structure ApplicationResponse where
  id : Nat
  full_name : String
  email : String
  gender : String
  phone : String
  university : String
  field_of_study : String
  degree_level : String
  application_type : String
  internship_duration : String
  preferred_working_method : String
  start_date : Option Date
  created_at : Nat
  cv_file_path : String
  motivation_file_path : String
  subjects : List String
  deriving Repr, DecidableEq

/-- Query `SELECT s.name FROM subjects s JOIN application_subjects a ON
a.subject_id=s.id WHERE a.application_id=$1`. -/
def subjectNamesFor (db : DB) (appId : Nat) : List String :=
  (db.application_subjects.filter (fun j => j.application_id == appId)).filterMap
    (fun j => (db.subjects.find? (fun s => s.id == j.subject_id)).map Subject.name)

/-- Clause `ORDER BY created_at DESC`, modelled as an insertion sort (descending
by `created_at`).  SQL fixes only the relative order of distinct keys; the
embedding picks this concrete realisation. -/
def insertDesc (a : Application) : List Application → List Application
  | [] => [a]
  | b :: bs => if b.created_at ≤ a.created_at then a :: b :: bs else b :: insertDesc a bs

def sortByCreatedDesc : List Application → List Application
  | [] => []
  | a :: as => insertDesc a (sortByCreatedDesc as)

/-- The newest `listApplications`: every application row, ordered by
`created_at` descending, each enriched with its joined subject names. -/
def listApplications (db : DB) : List ApplicationResponse :=
  (sortByCreatedDesc db.applications).map (fun a =>
    { id := a.id
      full_name := a.full_name
      email := a.email
      gender := a.gender
      phone := a.phone
      university := a.university
      field_of_study := a.field_of_study
      degree_level := a.degree_level
      application_type := a.application_type
      internship_duration := a.internship_duration
      preferred_working_method := a.preferred_working_method
      start_date := a.start_date
      created_at := a.created_at
      cv_file_path := a.cv_file_path
      motivation_file_path := a.motivation_file_path
      subjects := subjectNamesFor db a.id })

/-- Query `SELECT EXISTS (SELECT 1 FROM application_subjects WHERE subject_id=..)`
in list form: the subject id is referenced by at least one application. -/
def referenced (db : DB) (sid : Nat) : Bool :=
  db.application_subjects.any (fun j => j.subject_id == sid)

/-- The 200 body of `/subjects/delete`: the ids actually deleted and the
ids left untouched because they are in use. -/
structure DeleteResult where
  deleted : List Nat
  in_use : List Nat
  deriving Repr, DecidableEq

/-- Outcome of `deleteSubjects`. -/
inductive DeleteOut where
  | httpError (status : Nat) (body : String)
  | ok (result : DeleteResult)
  deriving Repr, DecidableEq

/-- The newest `deleteSubjects` (DELETE path, body already decoded):
400 on an empty id list; otherwise the requested ids are partitioned by the
`SELECT DISTINCT subject_id FROM application_subjects WHERE subject_id =
ANY($1)` query into in-use ids (left untouched) and deletable ids, the
deletable subject rows are removed transactionally, and both sets are
reported.  `application_subjects` is never written. -/
def deleteSubjects (st : ServerState) (ids : List Nat) : DeleteOut × ServerState :=
  if ids = [] then
    (.httpError 400 "No subjects selected", st)
  else
    let inUse := (ids.filter (fun i => referenced st.db i)).dedup
    let deletable := ids.filter (fun i => !(decide (i ∈ inUse)))
    let db1 : DB :=
      { applications := st.db.applications
        subjects := st.db.subjects.filter (fun s => !(decide (s.id ∈ deletable)))
        application_subjects := st.db.application_subjects }
    (.ok ⟨deletable, inUse⟩, { st with db := db1 })

/-- A session record bound to the `auth` cookie:
`{user_id, role, username}` as stored by `login`. -/
structure SessionData where
  user_id : Nat
  role : String
  username : String
  deriving Repr, DecidableEq

/-- Outcome of the auth gate around a handler producing `α`: either the
request was denied (the wrapped handler never ran) or the wrapped handler
ran and produced a value. -/
inductive GateResult (α : Type) where
  | denied (status : Nat) (body : String)
  | handled (a : α)
  deriving Repr, DecidableEq

/-- The newest `authRequired role next`: resolves the caller's session
(`session.Values["role"].(string)`, `none` when the request carries no valid
session record); no session → 401 Unauthorized; a required role set and
different from the session's role → 403 Forbidden; otherwise the wrapped
handler runs with the caller's session data. -/
def authRequired {α : Type} (role : String) (next : SessionData → α)
    (sess : Option SessionData) : GateResult α :=
  match sess with
  | none => .denied 401 "Unauthorized"
  | some s =>
    if role ≠ "" ∧ s.role ≠ role then .denied 403 "Forbidden"
    else .handled (next s)

/-! ### File delivery

HTTP paths are modelled as their slash-separated segment lists: a request
URL path reads `"/" ++ String.intercalate "/" segs`, so Go's
`r.URL.Path[1:]` is `String.intercalate "/" segs`.  The filesystem visible
to the process is a list of file paths in segment form. -/

/-- Go's `http.ServeFile` refuses any request URL path containing a `..`
path element with `400 invalid URL path` (documented net/http behaviour).
Go additionally splits on backslashes when looking for `..`; that extra
splitting only rejects more paths and is not modelled. -/
def containsDotDot (segs : List String) : Bool :=
  segs.any (fun s => s == "..")

/-- Outcome of the file-delivery handler: an error status, the bytes of the
file stored at `path`, or the stdlib 404 when nothing is stored there. -/
inductive ServeOut where
  | httpError (status : Nat) (body : String)
  | fileBytes (path : List String)
  | notFound
  deriving Repr, DecidableEq

/-- Check `filePath == ""` for `filePath := r.URL.Path[1:]` in segment form: the
joined relative path `String.intercalate "/" segs` is empty exactly when the
segment list is empty or is the single empty segment (request path `/`). -/
def relPathIsEmpty : List String → Bool
  | [] => true
  | [s] => s = ""
  | _ :: _ :: _ => false

/-- Check `filePath[0] == '.'` in segment form: the joined relative path begins
with `'.'` exactly when its first segment begins with `'.'` (an empty first
segment followed by more segments makes the path begin with `'/'`). -/
def firstSegDot : List String → Bool
  | [] => false
  | s :: _ =>
    match s.data with
    | c :: _ => c = '.'
    | [] => false

/-- The newest `serveFile` (GET path): `filePath := r.URL.Path[1:]`; an
empty path or one beginning with `.` is rejected with 400 `Invalid file
path`; otherwise `http.ServeFile` runs: 400 `invalid URL path` on a `..`
path element, the stored file's bytes when a file exists at the path, the
stdlib 404 otherwise. -/
def serveFile (files : List (List String)) (segs : List String) : ServeOut :=
  if relPathIsEmpty segs then .httpError 400 "Invalid file path"
  else if firstSegDot segs then .httpError 400 "Invalid file path"
  else if containsDotDot segs then .httpError 400 "invalid URL path"
  else if segs ∈ files then .fileBytes segs
  else .notFound

/-- Lexical resolution of a relative path: `.` and empty segments vanish,
`..` pops; `none` when the path climbs above its starting directory. -/
def normAux : List String → List String → Option (List String)
  | stack, [] => some stack.reverse
  | stack, s :: rest =>
    if s = "" ∨ s = "." then normAux stack rest
    else if s = ".." then
      match stack with
      | [] => none
      | _ :: st => normAux st rest
    else normAux (s :: stack) rest

def normalizePath (segs : List String) : Option (List String) :=
  normAux [] segs

/-- The relative path `segs` resolves to a location under directory
`root`. -/
def resolvesUnder (root : String) (segs : List String) : Bool :=
  match normalizePath segs with
  | some (r :: _) => r == root
  | _ => false

end New

/-! ## Client-side form validation (`ApplyPage.validateForm` in `App.jsx`)

The browser-side check run before any request is sent; a `false` result
aborts the submission (an alert is shown and no fetch happens). -/

namespace Client

/-- Normalisation `phone.replace(/\D/g, "")`. -/
def stripNonDigits (s : String) : String :=
  String.mk (s.data.filter Char.isDigit)

/-- Index `l.indexOf c` over characters (JS `indexOf`; only consulted when the
character is present, as in the source). -/
def idxOf (l : List Char) (c : Char) : Nat := l.indexOf c

/-- JS `lastIndexOf` over characters (only consulted when present). -/
def lastIdxOf (l : List Char) (c : Char) : Nat :=
  l.length - 1 - l.reverse.indexOf c

/-- The client email test:
`email.includes "@" && email.includes "." && !(indexOf "@" > lastIndexOf ".")`. -/
def emailFormatOk (email : String) : Bool :=
  email.data.contains '@' && email.data.contains '.' &&
    !(idxOf email.data '@' > lastIdxOf email.data '.')

/-- The text inputs `validateForm` reads from the form data. -/
structure ClientFormData where
  phone : String
  email : String
  subjects : List String
  deriving Repr, DecidableEq

/-- Function `validateForm` of the apply page: phone must strip to exactly 8 digits,
email must pass the minimal format test, the `/email-exists` probe
(`emailTaken`) must be false, at least one subject must be checked, and a
chosen cv / motivation file (its DOM `type` passed as `some mime`) must be
`application/pdf`.  The checks run in this order and the first failure
aborts the submission. -/
def validateForm (fd : ClientFormData) (emailTaken : Bool)
    (cvType motivationType : Option String) : Bool :=
  if (stripNonDigits fd.phone).length ≠ 8 then false
  else if !(emailFormatOk fd.email) then false
  else if emailTaken then false
  else if fd.subjects = [] then false
  else if cvType.any (fun t => t ≠ "application/pdf") then false
  else if motivationType.any (fun t => t ≠ "application/pdf") then false
  else true

end Client

/-! ## Helper lemmas and observation functions -/

/-- The apply response is the 201 success. -/
def ApplyOut.isCreated : ApplyOut → Bool
  | .created _ => true
  | .httpError _ _ => false

/-- The deleted ids reported by a `deleteSubjects` response. -/
def New.DeleteOut.deletedIds : New.DeleteOut → List Nat
  | .ok r => r.deleted
  | .httpError _ _ => []

/-- The in-use ids reported by a `deleteSubjects` response. -/
def New.DeleteOut.inUseIds : New.DeleteOut → List Nat
  | .ok r => r.in_use
  | .httpError _ _ => []

/-- The `deleteSubjects` response is the 200 success. -/
def New.DeleteOut.isOk : New.DeleteOut → Bool
  | .ok _ => true
  | .httpError _ _ => false

/-- The original `savePDF` never touches the database. -/
theorem orig_savePDF_db (st : Orig.ServerState) (field : String) (f : Option FormFile) :
    ((Orig.savePDF st field f).2).db = st.db := by
  cases f with
  | none => rfl
  | some file =>
    by_cases h : file.contentType ≠ "application/pdf"
    · simp [Orig.savePDF, h]
    · simp [Orig.savePDF, h]

/-- The newest `savePDF` never touches the database. -/
theorem new_savePDF_db (st : New.ServerState) (f : Option FormFile) :
    ((New.savePDF st f).2).db = st.db := by
  cases f with
  | none => rfl
  | some file => rfl

/-- The original `savePDF` on a present PDF part writes the timestamped
upload and returns its path. -/
theorem orig_savePDF_pdf (st : Orig.ServerState) (field : String)
    (file : FormFile) (h : file.contentType = "application/pdf") :
    Orig.savePDF st field (some file) =
      (("uploads/" ++ toString st.clock ++ "_" ++ file.filename, none),
        { st with
          files := st.files ++ ["uploads/" ++ toString st.clock ++ "_" ++ file.filename]
          clock := st.clock + 1 }) := by
  simp [Orig.savePDF, h]

/-- The original `savePDF` on a present non-PDF part errors out without
writing anything. -/
theorem orig_savePDF_reject (st : Orig.ServerState) (field : String)
    (file : FormFile) (h : file.contentType ≠ "application/pdf") :
    Orig.savePDF st field (some file) =
      (("", some (field ++ " must be a PDF file")), st) := by
  simp [Orig.savePDF, h]

/-- A response known to be 201 Created is not any `http.Error`. -/
theorem isCreated_ne_httpError (o : ApplyOut) (h : o.isCreated = true)
    (s : Nat) (m : String) : o ≠ .httpError s m := by
  cases o with
  | created n => intro he; cases he
  | httpError a b => exact Bool.noConfusion h

/-- Observations on the success path of the original apply handler: once the
subject check passes and the CV save returns without error, the handler
answers 201 Created and appends exactly one application row, carrying the
returned CV path, the motivation path produced by the (error-ignoring)
motivation save, and the parsed start date. -/
theorem orig_apply_success_obs (st : Orig.ServerState) (r : ApplyForm)
    (hsub : r.subjects ≠ []) (cvPath : String) (st1 : Orig.ServerState)
    (hcv : Orig.savePDF st "cv" r.cv = ((cvPath, none), st1)) :
    (Orig.applyHandler st r).1.isCreated = true ∧
    (Orig.applyHandler st r).2.db.applications.length
      = st.db.applications.length + 1 ∧
    ∀ a ∈ (Orig.applyHandler st r).2.db.applications, a ∉ st.db.applications →
      a.cv_file_path = cvPath ∧
      a.motivation_file_path = (Orig.savePDF st1 "motivation" r.motivation).1.1 ∧
      a.start_date = startDateOf r.early_start_date := by
  have hdb1 : st1.db = st.db := by
    have h := orig_savePDF_db st "cv" r.cv
    rw [hcv] at h
    exact h
  have hdb2 := orig_savePDF_db st1 "motivation" r.motivation
  simp only [Orig.applyHandler, if_neg hsub, hcv]
  refine ⟨rfl, ?_, ?_⟩
  · simp [hdb2, hdb1]
  · intro a ha hnot
    rw [hdb2, hdb1] at ha
    rcases List.mem_append.mp ha with h | h
    · exact absurd h hnot
    · rw [List.mem_singleton.mp h]
      exact ⟨rfl, rfl, rfl⟩

/-! ## Concrete fixtures used by witnesses and counterexamples -/

def pdfCv : FormFile := ⟨"cv.pdf", "application/pdf"⟩

def sampleForm : ApplyForm :=
  { full_name := "John Doe"
    email := "john@example.com"
    gender := "Male"
    phone := "12-34-56-78"
    university := "UT"
    field_of_study := "CS"
    degree_level := "Master"
    application_type := "Solo"
    internship_duration := "6 months"
    preferred_working_method := "Remote"
    early_start_date := "2026-01-15"
    subjects := ["Data Science"]
    cv := some pdfCv
    motivation := none }

def emptyNewState : New.ServerState := ⟨⟨[], [], []⟩, [], 0⟩

def emptyOrigState : Orig.ServerState := ⟨⟨[], []⟩, [], 0⟩

def storedApp : Application :=
  { id := 1
    full_name := "Jane Roe"
    email := "john@example.com"
    gender := "Female"
    phone := "98765432"
    university := "UT"
    field_of_study := "CS"
    degree_level := "Bachelor"
    application_type := "Pair"
    internship_duration := "4 months"
    preferred_working_method := "Onsite"
    start_date := none
    created_at := 5
    cv_file_path := "uploads/1_cv.pdf"
    motivation_file_path := "" }

def oneAppState : New.ServerState :=
  ⟨⟨[storedApp], [], []⟩, ["uploads/1_cv.pdf"], 10⟩

/-! ## The claims -/

/-- Claim C1: for every request to an endpoint wrapped by the auth gate
with a required role, a request with no valid session gets 401 Unauthorized
and the wrapped handler does not run (the outcome is the same whatever the
handler is); a valid session whose role differs from the required role gets
403 Forbidden, again without running the handler; otherwise the wrapped
handler runs on the caller's session data. -/
theorem c1_auth_gate_contract {α : Type} (role : String) (hrole : role ≠ "")
    (next : New.SessionData → α) :
    (∀ h : New.SessionData → α,
      New.authRequired role h none = .denied 401 "Unauthorized") ∧
    (∀ s : New.SessionData, s.role ≠ role → ∀ h : New.SessionData → α,
      New.authRequired role h (some s) = .denied 403 "Forbidden") ∧
    (∀ s : New.SessionData, s.role = role →
      New.authRequired role next (some s) = .handled (next s)) := by
  refine ⟨fun h => rfl, fun s hs h => ?_, fun s hs => ?_⟩
  · simp [New.authRequired, hrole, hs]
  · simp [New.authRequired, hs]

/-- Witness for C1 at role `admin`: a session-less request is denied 401, a
`user` session is denied 403, an `admin` session reaches the handler. -/
theorem c1_auth_gate_contract_witness :
    ("admin" : String) ≠ "" ∧
    New.authRequired "admin" (fun s => s.username) none =
      .denied 401 "Unauthorized" ∧
    New.authRequired "admin" (fun s => s.username) (some ⟨1, "user", "bob"⟩) =
      .denied 403 "Forbidden" ∧
    New.authRequired "admin" (fun s => s.username) (some ⟨2, "admin", "alice"⟩) =
      .handled "alice" := by
  have h := c1_auth_gate_contract (α := String) "admin" (by decide) (fun s => s.username)
  exact ⟨by decide, h.1 _, h.2.1 ⟨1, "user", "bob"⟩ (by decide) _,
    h.2.2 ⟨2, "admin", "alice"⟩ rfl⟩

/-- Claim C4: a submission with zero subjects selected fails with 400 and
persists nothing — the original apply handler checks `len(subjects) == 0`
before any file save or insert and returns with the state untouched; the
client-side validation likewise never lets a zero-subject submission
through. -/
theorem c4_zero_subjects_bad_request :
    (∀ (st : Orig.ServerState) (r : ApplyForm), r.subjects = [] →
      Orig.applyHandler st r =
        (.httpError 400 "At least one subject is required", st)) ∧
    (∀ (fd : Client.ClientFormData) (taken : Bool) (cvT mT : Option String),
      fd.subjects = [] → Client.validateForm fd taken cvT mT = false) := by
  constructor
  · intro st r h
    simp [Orig.applyHandler, h]
  · intro fd taken cvT mT h
    simp [Client.validateForm, h]

/-- Witness for C4: a concrete submission with no subjects is rejected with
400 and the server state is returned unchanged, and the client refuses to
submit it. -/
theorem c4_zero_subjects_bad_request_witness :
    ({ sampleForm with subjects := [] } : ApplyForm).subjects = [] ∧
    Orig.applyHandler emptyOrigState { sampleForm with subjects := [] } =
      (.httpError 400 "At least one subject is required", emptyOrigState) ∧
    Client.validateForm ⟨"12345678", "a@b.c", []⟩ false
      (some "application/pdf") none = false := by
  exact ⟨rfl, c4_zero_subjects_bad_request.1 emptyOrigState _ rfl,
    c4_zero_subjects_bad_request.2 ⟨"12345678", "a@b.c", []⟩ false
      (some "application/pdf") none rfl⟩

/-- Claim C2: a submission whose email is already present in the
applications table gets 409 Conflict and the state is completely unchanged
(no application row, no join rows, no upload files).  The emails on file
are assumed nonempty, which every application admitted by the intake
satisfies (an empty email is rejected with 400 before insertion). -/
theorem c2_duplicate_email_conflict (st : New.ServerState) (r : ApplyForm)
    (hwf : ∀ a ∈ st.db.applications, a.email ≠ "")
    (a : Application) (ha : a ∈ st.db.applications) (he : a.email = r.email) :
    New.applyHandler st r = (.httpError 409 "Email already used", st) := by
  have hne : r.email ≠ "" := he ▸ hwf a ha
  have hex : New.emailOnFile st.db r.email = true := by
    simp only [New.emailOnFile, List.any_eq_true]
    exact ⟨a, ha, by simp [he]⟩
  simp [New.applyHandler, hne, hex]

/-- Witness for C2: with one stored application, re-submitting its email is
answered 409 and the state is unchanged. -/
theorem c2_duplicate_email_conflict_witness :
    (∀ a ∈ oneAppState.db.applications, a.email ≠ "") ∧
    storedApp ∈ oneAppState.db.applications ∧
    storedApp.email = sampleForm.email ∧
    New.applyHandler oneAppState sampleForm =
      (.httpError 409 "Email already used", oneAppState) := by
  refine ⟨by decide, by decide, rfl, ?_⟩
  exact c2_duplicate_email_conflict oneAppState sampleForm (by decide)
    storedApp (by decide) rfl

/-- Claim C10 (implicit): a submission that omits the `cv` file part never
gets a 400 response for it.  In the newest handler the `r.FormFile` error
surfaces as 500 `Failed to save CV` with the state untouched (no row, no
files); in the original handler `savePDF` returns `("", nil)` for a missing
part, so an otherwise valid submission succeeds and the inserted row's
`cv_file_path` is the empty string. -/
theorem c10_missing_cv_behaviour :
    (∀ (st : New.ServerState) (r : ApplyForm), r.email ≠ "" →
      New.emailOnFile st.db r.email = false → r.cv = none →
      New.applyHandler st r = (.httpError 500 "Failed to save CV", st)) ∧
    (∀ (st : Orig.ServerState) (r : ApplyForm), r.subjects ≠ [] → r.cv = none →
      (Orig.applyHandler st r).1.isCreated = true ∧
      (Orig.applyHandler st r).2.db.applications.length
        = st.db.applications.length + 1 ∧
      (∀ a ∈ (Orig.applyHandler st r).2.db.applications,
        a ∉ st.db.applications → a.cv_file_path = "") ∧
      (∀ m, (Orig.applyHandler st r).1 ≠ .httpError 400 m)) := by
  constructor
  · intro st r he hex hcv
    simp [New.applyHandler, he, hex, hcv, New.savePDF]
  · intro st r hsub hcv
    have h := orig_apply_success_obs st r hsub "" st (by rw [hcv]; rfl)
    exact ⟨h.1, h.2.1, fun a ha hnot => ((h.2.2 a ha hnot).1),
      fun m => isCreated_ne_httpError _ h.1 400 m⟩

/-- Witness for C10: the same cv-less submission gets 500 with nothing
persisted from the newest handler, and is inserted with an empty
`cv_file_path` by the original handler. -/
theorem c10_missing_cv_behaviour_witness :
    ({ sampleForm with cv := none } : ApplyForm).email ≠ "" ∧
    New.emailOnFile emptyNewState.db
      ({ sampleForm with cv := none } : ApplyForm).email = false ∧
    New.applyHandler emptyNewState { sampleForm with cv := none } =
      (.httpError 500 "Failed to save CV", emptyNewState) ∧
    ({ sampleForm with cv := none } : ApplyForm).subjects ≠ [] ∧
    (Orig.applyHandler emptyOrigState { sampleForm with cv := none }).1.isCreated
      = true ∧
    (Orig.applyHandler emptyOrigState
      { sampleForm with cv := none }).2.db.applications.length = 1 := by
  have h1 := c10_missing_cv_behaviour.1 emptyNewState
    { sampleForm with cv := none } (by decide) (by decide) rfl
  have h2 := c10_missing_cv_behaviour.2 emptyOrigState
    { sampleForm with cv := none } (by decide) rfl
  exact ⟨by decide, by decide, h1, by decide, h2.1, h2.2.1⟩

def nonPdfMotivation : FormFile := ⟨"letter.txt", "text/plain"⟩

/-- Counterexample to claim C3 as stated: an otherwise valid submission
whose motivation letter has content type `text/plain` is *not* rejected
with 400 — the original handler discards the `savePDF` error for the
motivation part and answers 201 Created. -/
theorem c3_nonpdf_motivation_counterexample :
    ({ sampleForm with motivation := some nonPdfMotivation } : ApplyForm).motivation
      = some nonPdfMotivation ∧
    nonPdfMotivation.contentType ≠ "application/pdf" ∧
    (Orig.applyHandler emptyOrigState
      { sampleForm with motivation := some nonPdfMotivation }).1 = .created 1 := by
  exact ⟨rfl, by decide, by decide⟩

/-- Claim C3, amended: a non-PDF `cv` fails with 400 and persists nothing;
a non-PDF `motivation` on an otherwise valid submission is *silently
ignored* — the submission succeeds and the inserted row's
`motivation_file_path` is the empty string (it is not rejected with 400 as
the claim states — only the client-side validation refuses to send a
non-PDF motivation); omitting `motivation` succeeds. -/
theorem c3_pdf_validation_amended :
    (∀ (st : Orig.ServerState) (r : ApplyForm) (file : FormFile),
      r.cv = some file → file.contentType ≠ "application/pdf" →
      ∃ m, Orig.applyHandler st r = (.httpError 400 m, st)) ∧
    (∀ (st : Orig.ServerState) (r : ApplyForm) (cvf mf : FormFile),
      r.subjects ≠ [] → r.cv = some cvf →
      cvf.contentType = "application/pdf" →
      r.motivation = some mf → mf.contentType ≠ "application/pdf" →
      (Orig.applyHandler st r).1.isCreated = true ∧
      ∀ a ∈ (Orig.applyHandler st r).2.db.applications,
        a ∉ st.db.applications → a.motivation_file_path = "") ∧
    (∀ (st : Orig.ServerState) (r : ApplyForm) (cvf : FormFile),
      r.subjects ≠ [] → r.cv = some cvf →
      cvf.contentType = "application/pdf" → r.motivation = none →
      (Orig.applyHandler st r).1.isCreated = true) ∧
    (∀ (fd : Client.ClientFormData) (taken : Bool) (cvT : Option String)
      (t : String), t ≠ "application/pdf" →
      Client.validateForm fd taken cvT (some t) = false) := by
  refine ⟨?_, ?_, ?_, ?_⟩
  · intro st r file hcv hct
    by_cases hsub : r.subjects = []
    · exact ⟨"At least one subject is required", by simp [Orig.applyHandler, hsub]⟩
    · refine ⟨"cv" ++ " must be a PDF file", ?_⟩
      simp only [Orig.applyHandler, if_neg hsub, hcv,
        orig_savePDF_reject st "cv" file hct]
  · intro st r cvf mf hsub hcv hct hmot hmct
    have h := orig_apply_success_obs st r hsub _ _
      (by rw [hcv]; exact orig_savePDF_pdf st "cv" cvf hct)
    refine ⟨h.1, ?_⟩
    intro a ha hnot
    have hm := (h.2.2 a ha hnot).2.1
    rw [hmot, orig_savePDF_reject _ "motivation" mf hmct] at hm
    exact hm
  · intro st r cvf hsub hcv hct hmot
    exact (orig_apply_success_obs st r hsub _ _
      (by rw [hcv]; exact orig_savePDF_pdf st "cv" cvf hct)).1
  · intro fd taken cvT t ht
    simp [Client.validateForm, Option.any, ht]

/-- Witness for the amended C3: a non-PDF cv is rejected with 400, a
non-PDF motivation on a valid submission is accepted with an empty stored
motivation path, and omitting the motivation succeeds. -/
theorem c3_pdf_validation_amended_witness :
    nonPdfMotivation.contentType ≠ "application/pdf" ∧
    (∃ m, Orig.applyHandler emptyOrigState
      { sampleForm with cv := some ⟨"cv.docx", "application/msword"⟩ } =
        (.httpError 400 m, emptyOrigState)) ∧
    (Orig.applyHandler emptyOrigState
      { sampleForm with motivation := some nonPdfMotivation }).1.isCreated = true ∧
    (Orig.applyHandler emptyOrigState sampleForm).1.isCreated = true ∧
    Client.validateForm ⟨"12345678", "a@b.c", ["Data Science"]⟩ false
      (some "application/pdf") (some "text/plain") = false := by
  refine ⟨by decide, ?_, ?_, ?_, ?_⟩
  · exact c3_pdf_validation_amended.1 emptyOrigState _ ⟨"cv.docx", "application/msword"⟩
      rfl (by decide)
  · exact (c3_pdf_validation_amended.2.1 emptyOrigState _ pdfCv nonPdfMotivation
      (by decide) rfl rfl rfl (by decide)).1
  · exact c3_pdf_validation_amended.2.2.1 emptyOrigState sampleForm pdfCv
      (by decide) rfl rfl rfl
  · exact c3_pdf_validation_amended.2.2.2 ⟨"12345678", "a@b.c", ["Data Science"]⟩
      false (some "application/pdf") "text/plain" (by decide)

/-- Counterexample to claim C5 as stated: a submission whose phone strips
to `123` (3 digits, not 8) sent directly to the intake server is accepted
with 201 Created, not rejected with 400 — the backend performs no phone
validation at all. -/
theorem c5_phone_counterexample :
    Client.stripNonDigits
      ({ sampleForm with phone := "123" } : ApplyForm).phone = "123" ∧
    (Client.stripNonDigits
      ({ sampleForm with phone := "123" } : ApplyForm).phone).length ≠ 8 ∧
    (New.applyHandler emptyNewState { sampleForm with phone := "123" }).1 =
      .created 1 := by
  exact ⟨by decide, by decide, by decide⟩

/-- Claim C5, amended: the 8-digit phone rule is enforced only by the
client-side form validation, which refuses to send any submission whose
phone does not strip to exactly 8 digits; the intake server itself never
inspects the phone — its response is the same whatever the phone value
carried by the form. -/
theorem c5_phone_amended :
    (∀ (fd : Client.ClientFormData) (taken : Bool) (cvT mT : Option String),
      (Client.stripNonDigits fd.phone).length ≠ 8 →
      Client.validateForm fd taken cvT mT = false) ∧
    (∀ (st : New.ServerState) (r : ApplyForm) (p1 p2 : String),
      (New.applyHandler st { r with phone := p1 }).1 =
      (New.applyHandler st { r with phone := p2 }).1) := by
  constructor
  · intro fd taken cvT mT h
    simp [Client.validateForm, h]
  · intro st r p1 p2
    by_cases he : r.email = ""
    · simp [New.applyHandler, he]
    · by_cases hex : New.emailOnFile st.db r.email
      · simp [New.applyHandler, he, hex]
      · cases hcv : r.cv with
        | none => simp [New.applyHandler, he, hex, hcv, New.savePDF]
        | some f => simp [New.applyHandler, he, hex, hcv, New.savePDF]

/-- Witness for the amended C5: the client refuses a 2-digit phone, and the
server's answer to a concrete submission is literally the same for phone
`123` and phone `12345678`. -/
theorem c5_phone_amended_witness :
    (Client.stripNonDigits "12").length ≠ 8 ∧
    Client.validateForm ⟨"12", "a@b.c", ["Data Science"]⟩ false
      (some "application/pdf") none = false ∧
    (New.applyHandler emptyNewState { sampleForm with phone := "123" }).1 =
      (New.applyHandler emptyNewState { sampleForm with phone := "12345678" }).1 := by
  refine ⟨by decide, ?_, ?_⟩
  · exact c5_phone_amended.1 ⟨"12", "a@b.c", ["Data Science"]⟩ false
      (some "application/pdf") none (by decide)
  · exact c5_phone_amended.2 emptyNewState sampleForm "123" "12345678"

/-- The newest apply handler reads `early_start_date` only through the
parse-or-drop computation `startDateOf`, so two forms differing only in a
start-date value with the same parse result are handled identically. -/
theorem new_apply_startDate_congr (st : New.ServerState) (r : ApplyForm)
    (v : String) (h : startDateOf r.early_start_date = startDateOf v) :
    New.applyHandler st r = New.applyHandler st { r with early_start_date := v } := by
  by_cases he : r.email = ""
  · simp [New.applyHandler, he]
  · by_cases hex : New.emailOnFile st.db r.email
    · simp [New.applyHandler, he, hex]
    · cases hcv : r.cv with
      | none => simp [New.applyHandler, he, hex, hcv, New.savePDF]
      | some f => simp [New.applyHandler, he, hex, hcv, New.savePDF, h]

/-- Claim C8: a present but unparseable `early_start_date` does not cause a
rejection — the newest handler's outcome (response and successor state) is
identical to the one for an omitted field, and any application row the
request inserts carries `start_date = none` (NULL). -/
theorem c8_malformed_start_date (st : New.ServerState) (r : ApplyForm)
    (hne : r.early_start_date ≠ "") (hbad : parseDate r.early_start_date = none) :
    New.applyHandler st r = New.applyHandler st { r with early_start_date := "" } ∧
    ∀ a ∈ (New.applyHandler st r).2.db.applications,
      a ∉ st.db.applications → a.start_date = none := by
  have hsd : startDateOf r.early_start_date = none := by
    simp [startDateOf, hne, hbad]
  refine ⟨new_apply_startDate_congr st r ""
    (by rw [hsd]; simp [startDateOf]), ?_⟩
  intro a ha hnot
  by_cases he : r.email = ""
  · simp [New.applyHandler, he] at ha
    exact absurd ha hnot
  · by_cases hex : New.emailOnFile st.db r.email
    · simp [New.applyHandler, he, hex] at ha
      exact absurd ha hnot
    · cases hcv : r.cv with
      | none =>
        simp [New.applyHandler, he, hex, hcv, New.savePDF] at ha
        exact absurd ha hnot
      | some f =>
        cases hmot : r.motivation with
        | none =>
          simp [New.applyHandler, he, hex, hcv, hmot, New.savePDF] at ha
          rcases ha with h | h
          · exact absurd h hnot
          · rw [h]
            exact hsd
        | some g =>
          simp [New.applyHandler, he, hex, hcv, hmot, New.savePDF] at ha
          rcases ha with h | h
          · exact absurd h hnot
          · rw [h]
            exact hsd

/-- Witness for C8: a submission carrying the unparseable start date
`2026-13-99` produces exactly the same response and state as the same
submission with the field omitted. -/
theorem c8_malformed_start_date_witness :
    ({ sampleForm with early_start_date := "2026-13-99" } : ApplyForm).early_start_date
      ≠ "" ∧
    parseDate "2026-13-99" = none ∧
    New.applyHandler emptyNewState { sampleForm with early_start_date := "2026-13-99" } =
      New.applyHandler emptyNewState
        { { sampleForm with early_start_date := "2026-13-99" } with
          early_start_date := "" } := by
  refine ⟨by decide, by decide, ?_⟩
  exact (c8_malformed_start_date emptyNewState
    { sampleForm with early_start_date := "2026-13-99" } (by decide) (by decide)).1

/-- Claim C6: on a batch delete with a non-empty id set, the handler
answers 200; the join table and the applications are untouched; every
requested id referenced by at least one application is reported in
`in_use`, is not reported in `deleted`, and every requested unreferenced id
is reported in `deleted` and its subject rows disappear; moreover *no*
referenced subject row is ever removed by the operation, requested or
not. -/
theorem c6_subject_delete_partition (st : New.ServerState) (ids : List Nat)
    (hne : ids ≠ []) :
    (New.deleteSubjects st ids).1.isOk = true ∧
    (New.deleteSubjects st ids).2.db.application_subjects
      = st.db.application_subjects ∧
    (New.deleteSubjects st ids).2.db.applications = st.db.applications ∧
    (∀ i ∈ ids, New.referenced st.db i = true →
      i ∈ (New.deleteSubjects st ids).1.inUseIds ∧
      i ∉ (New.deleteSubjects st ids).1.deletedIds) ∧
    (∀ i ∈ ids, New.referenced st.db i = false →
      i ∈ (New.deleteSubjects st ids).1.deletedIds ∧
      ∀ s ∈ (New.deleteSubjects st ids).2.db.subjects, s.id ≠ i) ∧
    (∀ s ∈ st.db.subjects, New.referenced st.db s.id = true →
      s ∈ (New.deleteSubjects st ids).2.db.subjects) := by
  simp only [New.deleteSubjects, if_neg hne, New.DeleteOut.isOk,
    New.DeleteOut.inUseIds, New.DeleteOut.deletedIds]
  have hInU : ∀ i : Nat,
      i ∈ (ids.filter (fun j => New.referenced st.db j)).dedup ↔
        (i ∈ ids ∧ New.referenced st.db i = true) := by
    intro i
    simp [List.mem_dedup, List.mem_filter]
  have hDel : ∀ i : Nat,
      i ∈ ids.filter
          (fun j => !(decide (j ∈ (ids.filter (fun k => New.referenced st.db k)).dedup))) ↔
        (i ∈ ids ∧ New.referenced st.db i = false) := by
    intro i
    simp [List.mem_filter, hInU]
    intro hi
    cases h : New.referenced st.db i with
    | false => simp [h]
    | true => simp [h, hi]
  refine ⟨by trivial, by trivial, by trivial, ?_, ?_, ?_⟩
  · intro i hi href
    refine ⟨(hInU i).mpr ⟨hi, href⟩, ?_⟩
    intro hmem
    have h := ((hDel i).mp hmem).2
    rw [href] at h
    exact Bool.noConfusion h
  · intro i hi href
    refine ⟨(hDel i).mpr ⟨hi, href⟩, ?_⟩
    intro s hs
    have h := (List.mem_filter.mp hs).2
    intro heq
    rw [Bool.not_eq_eq_eq_not, Bool.not_true, decide_eq_false_iff_not] at h
    exact h (heq ▸ (hDel i).mpr ⟨hi, href⟩)
  · intro s hs href
    refine List.mem_filter.mpr ⟨hs, ?_⟩
    rw [Bool.not_eq_eq_eq_not, Bool.not_true, decide_eq_false_iff_not]
    intro hmem
    have h := ((hDel s.id).mp hmem).2
    rw [href] at h
    exact Bool.noConfusion h

def c6Subjects : List Subject := [⟨1, "Web Development"⟩, ⟨2, "Data Science"⟩]

/-- A state with two subjects of which only subject 1 is referenced by an
application. -/
def c6State : New.ServerState :=
  ⟨⟨[storedApp], c6Subjects, [⟨1, 1⟩]⟩, [], 20⟩

/-- Witness for C6: deleting `[1, 2]` in `c6State` reports subject 1 (the
referenced one, which survives) under `in_use` and subject 2 under
`deleted`, removing only subject 2. -/
theorem c6_subject_delete_partition_witness :
    ([1, 2] : List Nat) ≠ [] ∧
    New.referenced c6State.db 1 = true ∧
    New.referenced c6State.db 2 = false ∧
    (New.deleteSubjects c6State [1, 2]).1.isOk = true ∧
    1 ∈ (New.deleteSubjects c6State [1, 2]).1.inUseIds ∧
    2 ∈ (New.deleteSubjects c6State [1, 2]).1.deletedIds ∧
    (⟨1, "Web Development"⟩ : Subject) ∈
      (New.deleteSubjects c6State [1, 2]).2.db.subjects ∧
    (New.deleteSubjects c6State [1, 2]).2.db.application_subjects
      = c6State.db.application_subjects := by
  have h := c6_subject_delete_partition c6State [1, 2] (by decide)
  refine ⟨by decide, by decide, by decide, h.1, ?_, ?_, ?_, h.2.1⟩
  · exact (h.2.2.2.1 1 (by decide) (by decide)).1
  · exact (h.2.2.2.2.1 2 (by decide) (by decide)).1
  · exact h.2.2.2.2.2 ⟨1, "Web Development"⟩ (by decide) (by decide)

/-- On a path with no `..` segment, the resolution stack only grows: the
result extends the starting directory. -/
theorem normAux_no_dotdot (segs : List String) :
    ∀ stack : List String, (∀ s ∈ segs, s ≠ "..") →
      ∃ out, New.normAux stack segs = some (stack.reverse ++ out) := by
  induction segs with
  | nil =>
    intro stack h
    exact ⟨[], by simp [New.normAux]⟩
  | cons s rest ih =>
    intro stack h
    by_cases hs : s = "" ∨ s = "."
    · rcases ih stack (fun t ht => h t (List.mem_cons_of_mem _ ht)) with ⟨out, hout⟩
      exact ⟨out, by simp [New.normAux, hs, hout]⟩
    · have hdd : s ≠ ".." := h s (List.mem_cons_self s rest)
      rcases ih (s :: stack) (fun t ht => h t (List.mem_cons_of_mem _ ht)) with ⟨out, hout⟩
      refine ⟨s :: out, ?_⟩
      simp [New.normAux, hs, hdd, hout]

/-- A path under `uploads/` with no `..` segment resolves under the
`uploads` root. -/
theorem resolvesUnder_of_no_dotdot (rest : List String)
    (h : ∀ s ∈ rest, s ≠ "..") :
    New.resolvesUnder "uploads" ("uploads" :: rest) = true := by
  rcases normAux_no_dotdot rest ["uploads"] h with ⟨out, hout⟩
  have hstep : New.normalizePath ("uploads" :: rest) = some ("uploads" :: out) := by
    have h1 : New.normAux [] ("uploads" :: rest) = New.normAux ["uploads"] rest := by
      simp [New.normAux]
    show New.normAux [] ("uploads" :: rest) = some ("uploads" :: out)
    rw [h1, hout]
    simp
  simp [New.resolvesUnder, hstep]

theorem relPathIsEmpty_uploads (rest : List String) :
    New.relPathIsEmpty ("uploads" :: rest) = false := by
  cases rest with
  | nil => decide
  | cons a t => rfl

theorem firstSegDot_uploads (rest : List String) :
    New.firstSegDot ("uploads" :: rest) = false := rfl

/-- Claim C9: for a request routed under the upload root
(URL path `/uploads/...`), a path that does not resolve under the `uploads`
directory is rejected with 400 and no bytes are served; a path beginning
with the traversal segment `..` right after the root likewise gets 400; and
whenever file bytes are served they are those of a file stored under the
`uploads` root. -/
theorem c9_serve_file_safety (files : List (List String)) (rest : List String) :
    (New.resolvesUnder "uploads" ("uploads" :: rest) = false →
      New.serveFile files ("uploads" :: rest) = .httpError 400 "invalid URL path") ∧
    (∀ t, rest = ".." :: t →
      New.serveFile files ("uploads" :: rest) = .httpError 400 "invalid URL path") ∧
    (∀ p, New.serveFile files ("uploads" :: rest) = .fileBytes p →
      p ∈ files ∧ p.head? = some "uploads") := by
  refine ⟨?_, ?_, ?_⟩
  · intro hru
    cases hdd : New.containsDotDot ("uploads" :: rest) with
    | false =>
      exfalso
      have hall : ∀ s ∈ rest, s ≠ ".." := by
        intro s hsmem heq
        have : New.containsDotDot ("uploads" :: rest) = true := by
          simp only [New.containsDotDot, List.any_eq_true]
          exact ⟨s, List.mem_cons_of_mem _ hsmem, by simp [heq]⟩
        rw [this] at hdd
        exact Bool.noConfusion hdd
      rw [resolvesUnder_of_no_dotdot rest hall] at hru
      exact Bool.noConfusion hru
    | true =>
      simp [New.serveFile, relPathIsEmpty_uploads, firstSegDot_uploads, hdd]
  · intro t ht
    have hdd : New.containsDotDot ("uploads" :: rest) = true := by
      simp only [New.containsDotDot, List.any_eq_true]
      exact ⟨"..", by rw [ht]; exact List.mem_cons_of_mem _ (List.mem_cons_self _ _), by simp⟩
    simp [New.serveFile, relPathIsEmpty_uploads, firstSegDot_uploads, hdd]
  · intro p hp
    simp only [New.serveFile] at hp
    split at hp
    · cases hp
    · split at hp
      · cases hp
      · split at hp
        · cases hp
        · split at hp
          · rename_i hmem
            cases hp
            exact ⟨hmem, rfl⟩
          · cases hp

/-- Witness for C9: `/uploads/../etc/passwd` resolves outside the upload
root and is rejected with 400; a stored file under `uploads/` is served and
its path sits under the root. -/
theorem c9_serve_file_safety_witness :
    New.resolvesUnder "uploads" ["uploads", "..", "etc", "passwd"] = false ∧
    New.serveFile [["uploads", "1_cv.pdf"]] ["uploads", "..", "etc", "passwd"] =
      .httpError 400 "invalid URL path" ∧
    (["uploads", "1_cv.pdf"] ∈ [["uploads", "1_cv.pdf"]] ∧
      (["uploads", "1_cv.pdf"] : List String).head? = some "uploads") := by
  refine ⟨by decide, ?_, ?_⟩
  · exact (c9_serve_file_safety [["uploads", "1_cv.pdf"]]
      ["..", "etc", "passwd"]).1 (by decide)
  · exact (c9_serve_file_safety [["uploads", "1_cv.pdf"]] ["1_cv.pdf"]).2.2
      ["uploads", "1_cv.pdf"] (by decide)

/-! ### Lemmas for the listing claim -/

/-- Descending order on `created_at`, the listing's sort key. -/
def DescBy (x y : Application) : Prop := y.created_at ≤ x.created_at

theorem mem_insertDesc {a x : Application} {l : List Application} :
    x ∈ New.insertDesc a l ↔ x = a ∨ x ∈ l := by
  induction l with
  | nil => simp [New.insertDesc]
  | cons b bs ih =>
    by_cases h : b.created_at ≤ a.created_at
    · simp [New.insertDesc, h]
    · simp [New.insertDesc, h, ih]
      tauto

theorem insertDesc_perm (a : Application) (l : List Application) :
    (New.insertDesc a l).Perm (a :: l) := by
  induction l with
  | nil => simp [New.insertDesc]
  | cons b bs ih =>
    by_cases h : b.created_at ≤ a.created_at
    · simp [New.insertDesc, h]
    · rw [New.insertDesc.eq_def]
      simp only [h, if_false]
      exact (ih.cons b).trans (List.Perm.swap a b bs)

theorem sortByCreatedDesc_perm (l : List Application) :
    (New.sortByCreatedDesc l).Perm l := by
  induction l with
  | nil => simp [New.sortByCreatedDesc]
  | cons a as ih =>
    exact (insertDesc_perm a (New.sortByCreatedDesc as)).trans (ih.cons a)

theorem insertDesc_pairwise (a : Application) (l : List Application)
    (h : l.Pairwise DescBy) : (New.insertDesc a l).Pairwise DescBy := by
  induction l with
  | nil => simp [New.insertDesc, List.pairwise_cons]
  | cons b bs ih =>
    rw [List.pairwise_cons] at h
    by_cases hba : b.created_at ≤ a.created_at
    · simp only [New.insertDesc, if_pos hba]
      rw [List.pairwise_cons]
      refine ⟨?_, List.pairwise_cons.mpr h⟩
      intro x hx
      rcases List.mem_cons.mp hx with rfl | hx
      · exact hba
      · exact le_trans (h.1 x hx) hba
    · simp only [New.insertDesc, if_neg hba]
      rw [List.pairwise_cons]
      refine ⟨?_, ih h.2⟩
      intro x hx
      rcases mem_insertDesc.mp hx with rfl | hx
      · exact le_of_not_le hba
      · exact h.1 x hx

theorem sortByCreatedDesc_pairwise (l : List Application) :
    (New.sortByCreatedDesc l).Pairwise DescBy := by
  induction l with
  | nil => simp [New.sortByCreatedDesc]
  | cons a as ih => exact insertDesc_pairwise a _ ih

/-- With duplicate-free subject ids, two stored subjects with the same id
are the same row. -/
theorem nodup_subject_eq {l : List Subject} (h : (l.map Subject.id).Nodup)
    {s t : Subject} (hs : s ∈ l) (ht : t ∈ l) (he : s.id = t.id) : s = t := by
  induction l with
  | nil => cases hs
  | cons b bs ih =>
    rw [List.map_cons, List.nodup_cons] at h
    rcases List.mem_cons.mp hs with rfl | hs' <;>
      rcases List.mem_cons.mp ht with rfl | ht'
    · rfl
    · exact absurd (by rw [he]; exact List.mem_map_of_mem _ ht') h.1
    · exact absurd (by rw [← he]; exact List.mem_map_of_mem _ hs') h.1
    · exact ih h.2 hs' ht'

/-- With duplicate-free subject ids, looking a stored subject up by its own
id returns exactly that row (`SELECT ... WHERE s.id = ...`). -/
theorem find_by_id_eq {l : List Subject} (h : (l.map Subject.id).Nodup)
    {s : Subject} (hs : s ∈ l) :
    l.find? (fun t => t.id == s.id) = some s := by
  cases hf : l.find? (fun t => t.id == s.id) with
  | none =>
    exfalso
    have hx := List.find?_eq_none.mp hf s hs
    simp at hx
  | some t =>
    have hp := List.find?_some hf
    have hm := List.mem_of_find?_eq_some hf
    rw [nodup_subject_eq h hm hs (by simpa using hp)]

/-- When some stored subject carries a name, the lookup by that name
succeeds and returns a stored subject with that name
(`SELECT id FROM subjects WHERE name=$1`). -/
theorem find_by_name_of_mem {l : List Subject} {nm : String}
    (h : ∃ s ∈ l, s.name = nm) :
    ∃ s, l.find? (fun t => t.name == nm) = some s ∧ s.name = nm ∧ s ∈ l := by
  cases hf : l.find? (fun t => t.name == nm) with
  | none =>
    exfalso
    rcases h with ⟨s, hs, hn⟩
    have hx := List.find?_eq_none.mp hf s hs
    simp [hn] at hx
  | some t =>
    exact ⟨t, rfl, by simpa using List.find?_some hf, List.mem_of_find?_eq_some hf⟩

/-- Shape of the database after a successful intake by the newest handler:
one application row with the fresh id is appended, the subjects table is
untouched, and one join row per *resolved* submitted subject name is
appended, all carrying the fresh id. -/
theorem new_apply_success_db (st : New.ServerState) (r : ApplyForm)
    (cvf : FormFile) (he : r.email ≠ "")
    (hex : New.emailOnFile st.db r.email = false) (hcv : r.cv = some cvf) :
    (New.applyHandler st r).1 = .created (nextAppId st.db.applications) ∧
    (New.applyHandler st r).2.db.subjects = st.db.subjects ∧
    (New.applyHandler st r).2.db.application_subjects
      = st.db.application_subjects ++ r.subjects.filterMap
          (fun nm => (New.subjectIdByName st.db nm).map
            (fun sid => AppSubject.mk (nextAppId st.db.applications) sid)) ∧
    ∃ app : Application,
      (New.applyHandler st r).2.db.applications = st.db.applications ++ [app] ∧
      app.id = nextAppId st.db.applications := by
  cases hmot : r.motivation with
  | none =>
    refine ⟨?_, ?_, ?_, ?_⟩ <;>
      simp [New.applyHandler, he, hex, hcv, hmot, New.savePDF]
  | some g =>
    refine ⟨?_, ?_, ?_, ?_⟩ <;>
      simp [New.applyHandler, he, hex, hcv, hmot, New.savePDF]

/-- The joined subject names of an application id `n` whose join rows are
exactly the resolved rows appended by the intake: a name appears iff it was
among the submitted names and belongs to some registered subject
(duplicate-free subject ids assumed). -/
theorem roundtrip_names (db : New.DB) (names : List String) (n : Nat)
    (S : List Subject) (J0 : List AppSubject)
    (hS : db.subjects = S)
    (hnodup : (S.map Subject.id).Nodup)
    (h0 : ∀ j ∈ J0, j.application_id ≠ n)
    (hJ : db.application_subjects = J0 ++ names.filterMap
      (fun nm => ((S.find? (fun s => s.name == nm)).map Subject.id).map
        (fun sid => AppSubject.mk n sid))) :
    ∀ name, name ∈ New.subjectNamesFor db n ↔
      (name ∈ names ∧ name ∈ S.map Subject.name) := by
  intro name
  have hfilter : db.application_subjects.filter (fun j => j.application_id == n)
      = names.filterMap
          (fun nm => ((S.find? (fun s => s.name == nm)).map Subject.id).map
            (fun sid => AppSubject.mk n sid)) := by
    rw [hJ, List.filter_append]
    have h1 : J0.filter (fun j => j.application_id == n) = [] := by
      rw [List.filter_eq_nil_iff]
      intro j hj
      simp [h0 j hj]
    have h2 : (names.filterMap
        (fun nm => ((S.find? (fun s => s.name == nm)).map Subject.id).map
          (fun sid => AppSubject.mk n sid))).filter
            (fun j => j.application_id == n)
        = names.filterMap
            (fun nm => ((S.find? (fun s => s.name == nm)).map Subject.id).map
              (fun sid => AppSubject.mk n sid)) := by
      rw [List.filter_eq_self]
      intro j hj
      rcases List.mem_filterMap.mp hj with ⟨nm, _, hF⟩
      rcases Option.map_eq_some'.mp hF with ⟨sid, _, hjeq⟩
      rw [← hjeq]
      simp
    rw [h1, h2, List.nil_append]
  constructor
  · intro hmem
    rcases List.mem_filterMap.mp (by
        simpa only [New.subjectNamesFor, hfilter, hS] using hmem) with ⟨j, hj, hlook⟩
    rcases List.mem_filterMap.mp hj with ⟨nm, hnm, hF⟩
    rcases Option.map_eq_some'.mp hF with ⟨sid, hsid, hjeq⟩
    rcases Option.map_eq_some'.mp hsid with ⟨s0, hs0find, hs0id⟩
    have hs0mem : s0 ∈ S := List.mem_of_find?_eq_some hs0find
    have hs0name : s0.name = nm := by simpa using List.find?_some hs0find
    have hjsub : j.subject_id = s0.id := by rw [← hjeq, ← hs0id]
    rw [hjsub] at hlook
    rw [find_by_id_eq hnodup hs0mem] at hlook
    rcases Option.map_eq_some'.mp hlook with ⟨t, ht, htname⟩
    have : t = s0 := by injection ht with h; exact h.symm
    rw [this] at htname
    rw [← htname, hs0name]
    exact ⟨hnm, by rw [htname, ← hs0name] at *; exact List.mem_map_of_mem _ hs0mem⟩
  · rintro ⟨hnm, hreg⟩
    rcases List.mem_map.mp hreg with ⟨s, hsmem, hsname⟩
    rcases find_by_name_of_mem ⟨s, hsmem, hsname⟩ with ⟨s0, hs0find, hs0name, hs0mem⟩
    have hj : AppSubject.mk n s0.id ∈ db.application_subjects.filter
        (fun j => j.application_id == n) := by
      rw [hfilter]
      exact List.mem_filterMap.mpr ⟨name, hnm, by rw [hs0find]; rfl⟩
    refine List.mem_filterMap.mpr ⟨AppSubject.mk n s0.id, ?_, ?_⟩
    · simpa only [New.subjectNamesFor] using hj
    · rw [hS]
      show (S.find? (fun t => t.id == (AppSubject.mk n s0.id).subject_id)).map
        Subject.name = some name
      rw [find_by_id_eq hnodup hs0mem]
      rw [Option.map_some', hs0name]

def c7State : New.ServerState := ⟨⟨[], [⟨1, "Math"⟩], []⟩, [], 0⟩

def c7Form : ApplyForm := { sampleForm with subjects := ["Math", "Unknown"] }

/-- Counterexample to claim C7 as stated: an application submitted with the
subject names `Math` and `Unknown` (of which only `Math` is registered) is
listed with the subject set `{Math}` — not the submitted set: the intake
silently skips unknown subject names, so the listing does not return
exactly the set of names submitted. -/
theorem c7_roundtrip_counterexample :
    c7Form.subjects = ["Math", "Unknown"] ∧
    (New.listApplications (New.applyHandler c7State c7Form).2.db).map
      (fun e => e.subjects) = [["Math"]] := by
  exact ⟨rfl, by decide⟩

/-- Claim C7, amended: listing returns all applications (the listed ids are
a permutation of the stored ids) ordered by `created_at` descending, and an
application intaken into a well-formed state (join rows pointing at stored
applications, duplicate-free subject ids) is listed with exactly the set of
its submitted subject names that were registered in the subjects table —
submitted names unknown to the registry are silently skipped and absent
from the listing, rather than included as the claim states. -/
theorem c7_listing_amended :
    (∀ db : New.DB, (New.listApplications db).Pairwise
      (fun x y => y.created_at ≤ x.created_at)) ∧
    (∀ db : New.DB, ((New.listApplications db).map (fun e => e.id)).Perm
      (db.applications.map (fun a => a.id))) ∧
    (∀ (st : New.ServerState) (r : ApplyForm) (cvf : FormFile),
      (∀ j ∈ st.db.application_subjects, ∃ a ∈ st.db.applications,
        j.application_id = a.id) →
      (st.db.subjects.map Subject.id).Nodup →
      r.email ≠ "" → New.emailOnFile st.db r.email = false → r.cv = some cvf →
      (∃ e ∈ New.listApplications (New.applyHandler st r).2.db,
        e.id = nextAppId st.db.applications) ∧
      ∀ e ∈ New.listApplications (New.applyHandler st r).2.db,
        e.id = nextAppId st.db.applications →
        ∀ name, name ∈ e.subjects ↔
          (name ∈ r.subjects ∧ name ∈ st.db.subjects.map Subject.name)) := by
  refine ⟨?_, ?_, ?_⟩
  · intro db
    exact List.pairwise_map.mpr (sortByCreatedDesc_pairwise db.applications)
  · intro db
    simp only [New.listApplications, List.map_map]
    exact (sortByCreatedDesc_perm db.applications).map _
  · intro st r cvf hjoin hnodup he hex hcv
    rcases new_apply_success_db st r cvf he hex hcv with
      ⟨hcreated, hsubs, hjoins, app, happs, hid⟩
    have h0 : ∀ j ∈ st.db.application_subjects,
        j.application_id ≠ nextAppId st.db.applications := by
      intro j hj heq
      rcases hjoin j hj with ⟨a, ha, hja⟩
      have hfresh := nextAppId_fresh st.db.applications a ha
      rw [hja] at heq
      rw [heq] at hfresh
      exact lt_irrefl _ hfresh
    have hrt := roundtrip_names (New.applyHandler st r).2.db r.subjects
      (nextAppId st.db.applications) st.db.subjects st.db.application_subjects
      hsubs hnodup h0 hjoins
    constructor
    · have happmem : app ∈ (New.applyHandler st r).2.db.applications := by
        rw [happs]
        exact List.mem_append_right _ (List.mem_cons_self _ _)
      have hsortmem :
          app ∈ New.sortByCreatedDesc (New.applyHandler st r).2.db.applications :=
        (sortByCreatedDesc_perm _).mem_iff.mpr happmem
      exact ⟨_, List.mem_map_of_mem _ hsortmem, hid⟩
    · intro e hein heid name
      simp only [New.listApplications] at hein
      rcases List.mem_map.mp hein with ⟨a, hasort, rfl⟩
      have haid : a.id = nextAppId st.db.applications := heid
      show name ∈ New.subjectNamesFor (New.applyHandler st r).2.db a.id ↔ _
      rw [haid]
      exact hrt name

def c7Entry : New.ApplicationResponse :=
  { id := 1
    full_name := "John Doe"
    email := "john@example.com"
    gender := "Male"
    phone := "12-34-56-78"
    university := "UT"
    field_of_study := "CS"
    degree_level := "Master"
    application_type := "Solo"
    internship_duration := "6 months"
    preferred_working_method := "Remote"
    start_date := some ⟨2026, 1, 15⟩
    created_at := 1
    cv_file_path := "uploads/0_cv.pdf"
    motivation_file_path := ""
    subjects := ["Math"] }

/-- Witness for the amended C7: after intaking `c7Form` into `c7State`, the
listing is descending-sorted, the new application is listed, and the name
test holds at both a registered submitted name (`Math`: listed) and an
unregistered one (`Unknown`: skipped). -/
theorem c7_listing_amended_witness :
    (New.listApplications (New.applyHandler c7State c7Form).2.db).Pairwise
      (fun x y => y.created_at ≤ x.created_at) ∧
    c7Entry ∈ New.listApplications (New.applyHandler c7State c7Form).2.db ∧
    c7Entry.id = nextAppId c7State.db.applications ∧
    ("Math" ∈ c7Entry.subjects ↔
      ("Math" ∈ c7Form.subjects ∧
        "Math" ∈ c7State.db.subjects.map Subject.name)) ∧
    ("Unknown" ∈ c7Entry.subjects ↔
      ("Unknown" ∈ c7Form.subjects ∧
        "Unknown" ∈ c7State.db.subjects.map Subject.name)) := by
  have h3 := c7_listing_amended.2.2 c7State c7Form pdfCv
    (by decide) (by decide) (by decide) (by decide) rfl
  refine ⟨c7_listing_amended.1 _, by decide, by decide, ?_, ?_⟩
  · exact h3.2 c7Entry (by decide) (by decide) "Math"
  · exact h3.2 c7Entry (by decide) (by decide) "Unknown"

end PFE
